import Mathlib

/-!
Verification of the noq term-rewriting core: the expression model,
structural pattern matcher, binding-substitution engine, single-step rule
application (`src/noq.rs`), and the tokenizer with source-location tracking
(`src/src/lexer.rs`).  Rust's `panic!` in `substitute_bindings` is modelled
by `Option.none`; the `HashMap` of bindings is modelled as an association
list whose keys are unique in every reachable state (the code only inserts
a key after looking it up and finding nothing).
-/

namespace Noq

/-- The expression tree of `src/noq.rs`: `Expr::Sym(String)` or
`Expr::Fun(String, Vec<Expr>)`. -/
inductive Expr where
  | Sym (name : String)
  | Fun (name : String) (args : List Expr)
deriving Repr

mutual
/-- Structural equality of expressions, as Rust's derived `PartialEq`:
same variant, same name, pairwise-equal children in order. -/
def Expr.beq : Expr → Expr → Bool
  | .Sym a, .Sym b => a == b
  | .Fun n1 a1, .Fun n2 a2 => n1 == n2 && Expr.beqList a1 a2
  | _, _ => false
termination_by structural e => e

/-- Pairwise structural equality of child lists (derived `PartialEq` on `Vec`). -/
def Expr.beqList : List Expr → List Expr → Bool
  | [], [] => true
  | x :: xs, y :: ys => Expr.beq x y && Expr.beqList xs ys
  | _, _ => false
termination_by structural xs => xs
end

/-- A rewrite rule: `struct Rule { head: Expr, body: Expr }`. -/
structure Rule where
  head : Expr
  body : Expr

/-- `type Bindings = HashMap<String, Expr>`, modelled as an association
list; reachable states never hold a key twice. -/
abbrev Bindings := List (String × Expr)

/-- `HashMap::get`: the value at the first (and in reachable states only)
occurrence of the key. -/
def bget (b : Bindings) (k : String) : Option Expr :=
  match b with
  | [] => none
  | (k', v) :: rest => if k' = k then some v else bget rest k

/-- `HashMap::insert`, in the code always called on an absent key. -/
def binsert (b : Bindings) (k : String) (v : Expr) : Bindings :=
  b ++ [(k, v)]

mutual
/-- `substitute_bindings` of `src/noq.rs`.  A `Sym` is replaced by its
binding when present; a `Fun`'s name is replaced when bound to a `Sym`,
kept when unbound, and the `panic!("Expected symbol in the place of the
functor name")` on a non-`Sym` binding is modelled by `none`; the children
are substituted recursively. -/
def substitute_bindings (bindings : Bindings) : Expr → Option Expr
  | .Sym name =>
    match bget bindings name with
    | some value => some value
    | none => some (.Sym name)
  | .Fun name args =>
    match bget bindings name with
    | some (.Sym new_name) => (substitute_list bindings args).map (Expr.Fun new_name)
    | none => (substitute_list bindings args).map (Expr.Fun name)
    | some (.Fun _ _) => none
termination_by structural e => e

/-- The `for arg in args` loop of `substitute_bindings`, propagating the
modelled panic. -/
def substitute_list (bindings : Bindings) : List Expr → Option (List Expr)
  | [] => some []
  | a :: rest =>
    match substitute_bindings bindings a, substitute_list bindings rest with
    | some a', some rest' => some (a' :: rest')
    | _, _ => none
termination_by structural as => as
end

mutual
/-- `pattern_match_impl` of `src/noq.rs`: returns the Rust `bool` together
with the bindings map after the call (the Rust code mutates it in place). -/
def pattern_match_impl (pattern value : Expr) (bindings : Bindings) : Bool × Bindings :=
  match pattern, value with
  | .Sym name, value =>
    match bget bindings name with
    | some bound_value => (Expr.beq bound_value value, bindings)
    | none => (true, binsert bindings name value)
  | .Fun name1 args1, .Fun name2 args2 =>
    if name1 = name2 ∧ args1.length = args2.length then
      pattern_match_list args1 args2 bindings
    else
      (false, bindings)
  | .Fun _ _, .Sym _ => (false, bindings)
termination_by structural pattern

/-- The `for i in 0..args1.len()` loop of `pattern_match_impl`: children
matched pairwise left to right, threading the bindings, stopping at the
first failure.  (Called only on lists of equal length.) -/
def pattern_match_list (patterns values : List Expr) (bindings : Bindings) : Bool × Bindings :=
  match patterns, values with
  | [], _ => (true, bindings)
  | p :: ps, v :: vs =>
    let r := pattern_match_impl p v bindings
    if r.1 then pattern_match_list ps vs r.2 else (false, r.2)
  | _ :: _, [] => (false, bindings)
termination_by structural patterns
end

/-- `pattern_match` of `src/noq.rs`: run the matcher from an empty map,
return the accumulated bindings on success and `none` on failure. -/
def pattern_match (pattern value : Expr) : Option Bindings :=
  let r := pattern_match_impl pattern value []
  if r.1 then some r.2 else none

mutual
/-- `Rule::apply_all` of `src/noq.rs`: try the whole expression first; on a
match the result is the substituted body, otherwise a `Sym` is returned
unchanged and a `Fun` is rebuilt with each child rewritten recursively.
`none` models the propagated substitution panic. -/
def Rule.apply_all (r : Rule) (expr : Expr) : Option Expr :=
  match pattern_match r.head expr with
  | some bindings => substitute_bindings bindings r.body
  | none =>
    match expr with
    | .Sym name => some (.Sym name)
    | .Fun name args => (Rule.apply_list r args).map (Expr.Fun name)
termination_by structural expr

/-- The `for arg in args` loop of `Rule::apply_all`. -/
def Rule.apply_list (r : Rule) : List Expr → Option (List Expr)
  | [] => some []
  | a :: rest =>
    match r.apply_all a, Rule.apply_list r rest with
    | some a', some rest' => some (a' :: rest')
    | _, _ => none
termination_by structural as => as
end

/-- `Loc` of `src/src/lexer.rs`: file path (when known) and zero-based row
and column. -/
structure Loc where
  file_path : Option String
  row : Nat
  col : Nat
deriving DecidableEq, Repr

/-- `TokenKind` of `src/src/lexer.rs`. -/
inductive TokenKind where
  | Sym
  | Rule
  | Shape
  | Apply
  | Done
  | OpenParen
  | CloseParen
  | Comma
  | Equals
  | Colon
  | Invalid
  | End
deriving DecidableEq, Repr

/-- `keyword_by_name` of `src/src/lexer.rs`. -/
def keyword_by_name (text : String) : Option TokenKind :=
  if text = "rule" then some TokenKind.Rule
  else if text = "shape" then some TokenKind.Shape
  else if text = "apply" then some TokenKind.Apply
  else if text = "done" then some TokenKind.Done
  else none

/-- `Token` of `src/src/lexer.rs`. -/
structure Token where
  kind : TokenKind
  text : String
  loc : Loc
deriving DecidableEq, Repr

/-- The `Lexer` state of `src/src/lexer.rs`: the remaining character
stream, the exhaustion flag, and the location counters (`lnum` current
line, `bol` index of the beginning of the current line, `cnum` index of
the cursor, all counted in characters from the start of input). -/
structure Lexer where
  chars : List Char
  exhausted : Bool
  file_path : Option String
  lnum : Nat
  bol : Nat
  cnum : Nat
deriving Repr

/-- `Lexer::from_iter`. -/
def Lexer.from_iter (cs : List Char) : Lexer :=
  { chars := cs, exhausted := false, file_path := none, lnum := 0, bol := 0, cnum := 0 }

/-- `Lexer::loc`: the current location; the column is `cnum - bol` (never
an underflow, since `bol ≤ cnum` in every reachable state). -/
def Lexer.loc (l : Lexer) : Loc :=
  { file_path := l.file_path, row := l.lnum, col := l.cnum - l.bol }

/-- Rust's `char::is_whitespace`: membership in the Unicode `White_Space`
code points. -/
def charIsWhitespace (c : Char) : Bool :=
  let n := c.toNat
  n = 0x20 || (0x09 ≤ n && n ≤ 0x0D) || n = 0x85 || n = 0xA0 || n = 0x1680 ||
    (0x2000 ≤ n && n ≤ 0x200A) || n = 0x2028 || n = 0x2029 || n = 0x202F ||
    n = 0x205F || n = 0x3000

/-- Rust's `char::is_alphanumeric`, restricted to the ASCII range
(`a`-`z`, `A`-`Z`, `0`-`9`).  The full Unicode `Alphabetic`/`Number`
tables behind `char::is_alphanumeric` are external data that cannot be
transcribed here, so the lexer below is generic in the classifier
(`Lexer.next_gen`); this ASCII fragment instantiates it (`Lexer.next`)
for the spec's concrete examples, all of whose characters it classifies
exactly as the program does. -/
def charIsAlphanumeric (c : Char) : Bool :=
  let n := c.toNat
  (0x61 ≤ n && n ≤ 0x7A) || (0x41 ≤ n && n ≤ 0x5A) || (0x30 ≤ n && n ≤ 0x39)

/-- The whitespace-skipping loop at the top of `Lexer::next`: consume
leading whitespace advancing `cnum`; a newline additionally increments
`lnum` and resets `bol` to the position just after the newline.  Arguments
and results are `(chars, lnum, bol, cnum)`. -/
def skip_ws : List Char → Nat → Nat → Nat → List Char × Nat × Nat × Nat
  | c :: rest, lnum, bol, cnum =>
    if charIsWhitespace c then
      if c = '\n' then skip_ws rest (lnum + 1) (cnum + 1) (cnum + 1)
      else skip_ws rest lnum bol (cnum + 1)
    else (c :: rest, lnum, bol, cnum)
  | [], lnum, bol, cnum => ([], lnum, bol, cnum)

/-- The whitespace loop of `Lexer::next`, acting on the lexer state. -/
def Lexer.skipWhitespace (l : Lexer) : Lexer :=
  let r := skip_ws l.chars l.lnum l.bol l.cnum
  { l with chars := r.1, lnum := r.2.1, bol := r.2.2.1, cnum := r.2.2.2 }

/-- The word-scanning loop of `Lexer::next`, generic in the alphanumeric
classifier `al` (standing for Rust's `char::is_alphanumeric`): greedily
consume further characters satisfying `al`, pushing each onto the token
text and advancing `cnum`.  Arguments and results are
`(chars, cnum, text)`. -/
def scan_word_gen (al : Char → Bool) :
    List Char → Nat → String → List Char × Nat × String
  | c :: rest, cnum, text =>
    if al c then scan_word_gen al rest (cnum + 1) (text.push c)
    else (c :: rest, cnum, text)
  | [], cnum, text => ([], cnum, text)

/-- `Lexer::next` (the `Iterator` implementation of `src/src/lexer.rs`),
as a state-passing function, generic in the alphanumeric classifier `al`,
which the Rust code (`char::is_alphanumeric`) uses both for the
invalid-character test and for the word scan: `none` when the iterator
yields `None`.  The token's `loc` is taken after whitespace skipping and
before any character of the token is consumed. -/
def Lexer.next_gen (al : Char → Bool) (l : Lexer) : Option (Token × Lexer) :=
  if l.exhausted then none
  else
    let l := l.skipWhitespace
    let loc := l.loc
    match l.chars with
    | x :: rest =>
      let l := { l with chars := rest, cnum := l.cnum + 1 }
      let text := String.singleton x
      if x = '(' then some (⟨TokenKind.OpenParen, text, loc⟩, l)
      else if x = ')' then some (⟨TokenKind.CloseParen, text, loc⟩, l)
      else if x = ',' then some (⟨TokenKind.Comma, text, loc⟩, l)
      else if x = '=' then some (⟨TokenKind.Equals, text, loc⟩, l)
      else if x = ':' then some (⟨TokenKind.Colon, text, loc⟩, l)
      else if !al x then
        some (⟨TokenKind.Invalid, text, loc⟩, { l with exhausted := true })
      else
        let r := scan_word_gen al l.chars l.cnum text
        let l := { l with chars := r.1, cnum := r.2.1 }
        match keyword_by_name r.2.2 with
        | some kind => some (⟨kind, r.2.2, loc⟩, l)
        | none => some (⟨TokenKind.Sym, r.2.2, loc⟩, l)
    | [] =>
      some (⟨TokenKind.End, "", loc⟩, { l with exhausted := true })

/-- `Lexer::next` at the ASCII instantiation of the classifier, under
which every concrete example of the spec (all ASCII) behaves exactly as
the program. -/
def Lexer.next (l : Lexer) : Option (Token × Lexer) :=
  Lexer.next_gen charIsAlphanumeric l

/-- Repeatedly call `Lexer::next` and collect the emitted tokens (what
Rust's `Iterator` protocol produces when the lexer is drained).  The fuel
only bounds the recursion; `length + 2` exceeds the number of tokens any
input can yield, since every token except the final `End` or `Invalid`
consumes at least one character. -/
def tokensAux : Nat → Lexer → List Token
  | 0, _ => []
  | fuel + 1, l =>
    match l.next with
    | some (t, l') => t :: tokensAux fuel l'
    | none => []

/-- The full token stream of an input string. -/
def tokenize (s : String) : List Token :=
  tokensAux (s.toList.length + 2) (Lexer.from_iter s.toList)

/-! Supporting lemmas. -/

mutual
/-- `Expr.beq` decides structural equality (Rust's derived `PartialEq`
agrees with propositional equality of the embedded trees). -/
theorem Expr.beq_iff : ∀ a b : Expr, Expr.beq a b = true ↔ a = b
  | .Sym _, .Sym _ => by simp [Expr.beq]
  | .Sym _, .Fun _ _ => by simp [Expr.beq]
  | .Fun _ _, .Sym _ => by simp [Expr.beq]
  | .Fun n as, .Fun m bs => by
    simp [Expr.beq, Expr.beqList_iff as bs]
termination_by structural a => a

/-- `Expr.beqList` decides equality of child lists. -/
theorem Expr.beqList_iff : ∀ xs ys : List Expr, Expr.beqList xs ys = true ↔ xs = ys
  | [], [] => by simp [Expr.beqList]
  | [], _ :: _ => by simp [Expr.beqList]
  | _ :: _, [] => by simp [Expr.beqList]
  | x :: xs, y :: ys => by
    simp [Expr.beqList, Expr.beq_iff x y, Expr.beqList_iff xs ys]
termination_by structural xs => xs
end

instance : DecidableEq Expr := fun a b => decidable_of_iff _ (Expr.beq_iff a b)

mutual
/-- Substituting with the empty bindings map leaves any template unchanged. -/
theorem substitute_bindings_nil : ∀ t : Expr, substitute_bindings [] t = some t
  | .Sym n => by simp [substitute_bindings, bget]
  | .Fun n args => by simp [substitute_bindings, bget, substitute_list_nil args]
termination_by structural t => t

/-- Substituting a child list with the empty bindings map is the identity. -/
theorem substitute_list_nil : ∀ ts : List Expr, substitute_list [] ts = some ts
  | [] => by simp [substitute_list]
  | t :: ts => by
    simp [substitute_list, substitute_bindings_nil t, substitute_list_nil ts]
termination_by structural ts => ts
end

/-- The child loop of `Rule::apply_all` is `mapM` of the recursive call:
each child is processed independently by the same algorithm. -/
theorem Rule.apply_list_eq_mapM (r : Rule) :
    ∀ args : List Expr, Rule.apply_list r args = args.mapM r.apply_all
  | [] => by rw [List.mapM_nil]; rfl
  | a :: rest => by
    rw [List.mapM_cons]
    simp only [Rule.apply_list, Rule.apply_list_eq_mapM r rest]
    cases r.apply_all a <;> cases rest.mapM r.apply_all <;> rfl

/-- The whitespace loop passes a non-whitespace head character through. -/
theorem skip_ws_not_ws (c : Char) (rest : List Char) (lnum bol cnum : Nat)
    (h : charIsWhitespace c = false) :
    skip_ws (c :: rest) lnum bol cnum = (c :: rest, lnum, bol, cnum) := by
  simp [skip_ws, h]

/-- Whitespace skipping is the identity on a state whose head character is
not whitespace. -/
theorem Lexer.skipWhitespace_not_ws (l : Lexer) (c : Char) (rest : List Char)
    (hc : l.chars = c :: rest) (h : charIsWhitespace c = false) :
    l.skipWhitespace = l := by
  simp only [Lexer.skipWhitespace, hc, skip_ws_not_ws c rest _ _ _ h]
  rw [← hc]

/-- Whitespace skipping is the identity on a state with no input left. -/
theorem Lexer.skipWhitespace_nil (l : Lexer) (hc : l.chars = []) :
    l.skipWhitespace = l := by
  simp only [Lexer.skipWhitespace, hc, skip_ws]
  rw [← hc]

/-- The head character left over by the whitespace loop is never
whitespace. -/
theorem skip_ws_head (cs : List Char) (lnum bol cnum : Nat) (c : Char)
    (rest : List Char) (h : (skip_ws cs lnum bol cnum).1 = c :: rest) :
    charIsWhitespace c = false := by
  induction cs generalizing lnum bol cnum with
  | nil => simp [skip_ws] at h
  | cons x xs ih =>
    by_cases hx : charIsWhitespace x = true
    · by_cases hn : x = '\n'
      · rw [skip_ws, if_pos hx, if_pos hn] at h
        exact ih _ _ _ h
      · rw [skip_ws, if_pos hx, if_neg hn] at h
        exact ih _ _ _ h
    · rw [skip_ws, if_neg hx] at h
      cases h
      simpa using hx

/-- Whitespace skipping is idempotent. -/
theorem Lexer.skipWhitespace_idem (l : Lexer) :
    l.skipWhitespace.skipWhitespace = l.skipWhitespace := by
  cases hc : l.skipWhitespace.chars with
  | nil => exact Lexer.skipWhitespace_nil _ hc
  | cons c rest =>
    refine Lexer.skipWhitespace_not_ws _ c rest hc ?_
    exact skip_ws_head l.chars l.lnum l.bol l.cnum c rest hc

/-- Once the lexer is exhausted, no further token is ever produced,
whatever the classifier. -/
theorem Lexer.next_gen_exhausted (al : Char → Bool) (l : Lexer)
    (h : l.exhausted = true) : Lexer.next_gen al l = none := by
  simp [Lexer.next_gen, h]

/-- Exhaustion under the ASCII instantiation. -/
theorem Lexer.next_exhausted (l : Lexer) (h : l.exhausted = true) :
    l.next = none :=
  Lexer.next_gen_exhausted charIsAlphanumeric l h

/-- At end of input the lexer yields one `End` token with empty text and
becomes exhausted, whatever the classifier. -/
theorem Lexer.next_gen_end (al : Char → Bool) (l : Lexer)
    (he : l.exhausted = false) (hc : l.chars = []) :
    Lexer.next_gen al l =
      some (⟨TokenKind.End, "", l.loc⟩, { l with exhausted := true }) := by
  simp [Lexer.next_gen, he, Lexer.skipWhitespace_nil l hc, hc]

/-- End of input under the ASCII instantiation. -/
theorem Lexer.next_end (l : Lexer) (he : l.exhausted = false)
    (hc : l.chars = []) :
    l.next = some (⟨TokenKind.End, "", l.loc⟩, { l with exhausted := true }) :=
  Lexer.next_gen_end charIsAlphanumeric l he hc

/-- A recognized punctuation character yields a one-character token of the
corresponding kind, whatever the classifier (the punctuation tests precede
the classifier tests in `Lexer::next`). -/
theorem Lexer.next_gen_punct (al : Char → Bool) (l : Lexer) (c : Char)
    (rest : List Char) (k : TokenKind) (he : l.exhausted = false)
    (hc : l.chars = c :: rest)
    (hk : (c = '(' ∧ k = TokenKind.OpenParen) ∨
          (c = ')' ∧ k = TokenKind.CloseParen) ∨
          (c = ',' ∧ k = TokenKind.Comma) ∨
          (c = '=' ∧ k = TokenKind.Equals) ∨
          (c = ':' ∧ k = TokenKind.Colon)) :
    Lexer.next_gen al l = some (⟨k, String.singleton c, l.loc⟩,
      { l with chars := rest, cnum := l.cnum + 1 }) := by
  rcases hk with ⟨rfl, rfl⟩ | ⟨rfl, rfl⟩ | ⟨rfl, rfl⟩ | ⟨rfl, rfl⟩ | ⟨rfl, rfl⟩ <;>
  · have hskip := Lexer.skipWhitespace_not_ws l _ rest hc (by decide)
    simp [Lexer.next_gen, he, hskip, hc]

/-- A character that is not whitespace, not recognized punctuation, and
not in the classifier's class yields one `Invalid` token and exhausts the
lexer. -/
theorem Lexer.next_gen_invalid (al : Char → Bool) (l : Lexer) (c : Char)
    (rest : List Char) (he : l.exhausted = false) (hc : l.chars = c :: rest)
    (hw : charIsWhitespace c = false)
    (hp : c ≠ '(' ∧ c ≠ ')' ∧ c ≠ ',' ∧ c ≠ '=' ∧ c ≠ ':')
    (ha : al c = false) :
    Lexer.next_gen al l = some (⟨TokenKind.Invalid, String.singleton c, l.loc⟩,
      { l with chars := rest, cnum := l.cnum + 1, exhausted := true }) := by
  obtain ⟨h1, h2, h3, h4, h5⟩ := hp
  have hskip := Lexer.skipWhitespace_not_ws l c rest hc hw
  simp [Lexer.next_gen, he, hskip, hc, h1, h2, h3, h4, h5, ha]

/-- An invalid character under the ASCII instantiation. -/
theorem Lexer.next_invalid (l : Lexer) (c : Char) (rest : List Char)
    (he : l.exhausted = false) (hc : l.chars = c :: rest)
    (hw : charIsWhitespace c = false)
    (hp : c ≠ '(' ∧ c ≠ ')' ∧ c ≠ ',' ∧ c ≠ '=' ∧ c ≠ ':')
    (ha : charIsAlphanumeric c = false) :
    l.next = some (⟨TokenKind.Invalid, String.singleton c, l.loc⟩,
      { l with chars := rest, cnum := l.cnum + 1, exhausted := true }) :=
  Lexer.next_gen_invalid charIsAlphanumeric l c rest he hc hw hp ha

/-- A classifier-leading character starts a word scan; the token kind is
the keyword kind when the accumulated text is a keyword and `Sym`
otherwise.  (For the program's classifier the non-whitespace and
non-punctuation hypotheses hold of every alphanumeric character.) -/
theorem Lexer.next_gen_word (al : Char → Bool) (l : Lexer) (c : Char)
    (rest : List Char) (he : l.exhausted = false) (hc : l.chars = c :: rest)
    (hw : charIsWhitespace c = false)
    (hp : c ≠ '(' ∧ c ≠ ')' ∧ c ≠ ',' ∧ c ≠ '=' ∧ c ≠ ':')
    (ha : al c = true) :
    Lexer.next_gen al l = some
      (⟨(keyword_by_name (scan_word_gen al rest (l.cnum + 1)
            (String.singleton c)).2.2).getD TokenKind.Sym,
        (scan_word_gen al rest (l.cnum + 1) (String.singleton c)).2.2, l.loc⟩,
       { l with
          chars := (scan_word_gen al rest (l.cnum + 1) (String.singleton c)).1,
          cnum := (scan_word_gen al rest (l.cnum + 1)
            (String.singleton c)).2.1 }) := by
  obtain ⟨h1, h2, h3, h4, h5⟩ := hp
  have hskip := Lexer.skipWhitespace_not_ws l c rest hc hw
  simp only [Lexer.next_gen, he, Bool.false_eq_true, if_false, hskip, hc, h1,
    h2, h3, h4, h5, if_neg, ha, Bool.not_true]
  cases hk : keyword_by_name
      (scan_word_gen al rest (l.cnum + 1) (String.singleton c)).2.2 <;>
    simp [hk]

/-- `Lexer::next` only depends on the whitespace-skipped state, whatever
the classifier. -/
theorem Lexer.next_gen_eq_skip (al : Char → Bool) (l : Lexer)
    (he : l.exhausted = false) :
    Lexer.next_gen al l = Lexer.next_gen al l.skipWhitespace := by
  have hex : l.skipWhitespace.exhausted = false := he
  unfold Lexer.next_gen
  rw [if_neg (by simp [he]), if_neg (by simp [hex]), Lexer.skipWhitespace_idem]

/-- Every token `Lexer::next` emits, whatever the classifier, carries the
location computed after whitespace skipping and before any of its own
characters is consumed. -/
theorem Lexer.next_gen_loc_eq (al : Char → Bool) (l : Lexer) (t : Token)
    (l2 : Lexer) (h : Lexer.next_gen al l = some (t, l2)) :
    t.loc = l.skipWhitespace.loc := by
  cases he : l.exhausted with
  | true => rw [Lexer.next_gen_exhausted al l he] at h; cases h
  | false =>
    rw [Lexer.next_gen_eq_skip al l he] at h
    have hex : l.skipWhitespace.exhausted = false := he
    cases hc : l.skipWhitespace.chars with
    | nil =>
      rw [Lexer.next_gen_end al _ hex hc] at h
      cases h; rfl
    | cons c rest =>
      have hw := skip_ws_head l.chars l.lnum l.bol l.cnum c rest hc
      by_cases hp : c = '(' ∨ c = ')' ∨ c = ',' ∨ c = '=' ∨ c = ':'
      · rcases hp with rfl | rfl | rfl | rfl | rfl
        · rw [Lexer.next_gen_punct al _ _ rest TokenKind.OpenParen hex hc
            (Or.inl ⟨rfl, rfl⟩)] at h
          cases h; rfl
        · rw [Lexer.next_gen_punct al _ _ rest TokenKind.CloseParen hex hc
            (Or.inr (Or.inl ⟨rfl, rfl⟩))] at h
          cases h; rfl
        · rw [Lexer.next_gen_punct al _ _ rest TokenKind.Comma hex hc
            (Or.inr (Or.inr (Or.inl ⟨rfl, rfl⟩)))] at h
          cases h; rfl
        · rw [Lexer.next_gen_punct al _ _ rest TokenKind.Equals hex hc
            (Or.inr (Or.inr (Or.inr (Or.inl ⟨rfl, rfl⟩))))] at h
          cases h; rfl
        · rw [Lexer.next_gen_punct al _ _ rest TokenKind.Colon hex hc
            (Or.inr (Or.inr (Or.inr (Or.inr ⟨rfl, rfl⟩))))] at h
          cases h; rfl
      · push_neg at hp
        obtain ⟨h1, h2, h3, h4, h5⟩ := hp
        by_cases ha : al c = true
        · rw [Lexer.next_gen_word al _ c rest hex hc hw
            ⟨h1, h2, h3, h4, h5⟩ ha] at h
          cases h; rfl
        · rw [Lexer.next_gen_invalid al _ c rest hex hc hw
            ⟨h1, h2, h3, h4, h5⟩ (by simpa using ha)] at h
          cases h; rfl

/-- Token locations under the ASCII instantiation. -/
theorem Lexer.next_loc_eq (l : Lexer) (t : Token) (l2 : Lexer)
    (h : l.next = some (t, l2)) : t.loc = l.skipWhitespace.loc :=
  Lexer.next_gen_loc_eq charIsAlphanumeric l t l2 h

/-- The word loop is a greedy `takeWhile`, whatever the classifier: it
consumes exactly the longest run of characters the classifier accepts,
appends it to the accumulated text and advances the cursor by its
length. -/
theorem scan_word_gen_spec (al : Char → Bool) :
    ∀ (cs : List Char) (cnum : Nat) (text : String),
    scan_word_gen al cs cnum text =
      (cs.dropWhile al, cnum + (cs.takeWhile al).length,
       String.mk (text.data ++ cs.takeWhile al))
  | [], cnum, text => by simp [scan_word_gen]
  | c :: rest, cnum, text => by
    by_cases h : al c = true
    · rw [scan_word_gen, if_pos h, scan_word_gen_spec al rest (cnum + 1)
        (text.push c)]
      simp only [List.takeWhile_cons, List.dropWhile_cons, h, if_true,
        Prod.mk.injEq, String.data_push]
      refine ⟨trivial, by simp only [List.length_cons]; omega, ?_⟩
      rw [List.append_assoc]
      rfl
    · rw [scan_word_gen, if_neg h]
      simp [List.takeWhile_cons, List.dropWhile_cons, h]

/-! The claims. -/

/-- C1: in substitution, for every bindings map `b` and template
`Fun(name, args)`: if `b` maps `name` to a symbol `s`, the result's
functor name is `s`'s text; if `name` is not a key of `b`, the functor
name is unchanged; and if `b` maps `name` to a function application,
substitution fails fatally (the modelled panic `none`, which aborts the
current rewrite) rather than producing a tree. -/
theorem C1_functor_name_substitution (b : Bindings) (name : String)
    (args : List Expr) :
    (∀ s, bget b name = some (Expr.Sym s) →
      substitute_bindings b (Expr.Fun name args) =
        (substitute_list b args).map (Expr.Fun s)) ∧
    (bget b name = none →
      substitute_bindings b (Expr.Fun name args) =
        (substitute_list b args).map (Expr.Fun name)) ∧
    (∀ g gargs, bget b name = some (Expr.Fun g gargs) →
      substitute_bindings b (Expr.Fun name args) = none) := by
  refine ⟨?_, ?_, ?_⟩
  · intro s hs; simp [substitute_bindings, hs]
  · intro hn; simp [substitute_bindings, hn]
  · intro g gargs hg; simp [substitute_bindings, hg]

/-- C1 witness: a functor bound to a symbol is renamed, an unbound functor
is kept, and a functor bound to a function application is fatal. -/
theorem C1_functor_name_substitution_witness :
    substitute_bindings [("f", Expr.Sym "g")] (Expr.Fun "f" [Expr.Sym "x"]) =
      (substitute_list [("f", Expr.Sym "g")] [Expr.Sym "x"]).map (Expr.Fun "g") ∧
    substitute_bindings [("q", Expr.Sym "g")] (Expr.Fun "f" []) =
      (substitute_list [("q", Expr.Sym "g")] []).map (Expr.Fun "f") ∧
    substitute_bindings [("f", Expr.Fun "h" [])] (Expr.Fun "f" []) = none :=
  ⟨(C1_functor_name_substitution [("f", Expr.Sym "g")] "f" [Expr.Sym "x"]).1 "g" rfl,
   (C1_functor_name_substitution [("q", Expr.Sym "g")] "f" []).2.1 rfl,
   (C1_functor_name_substitution [("f", Expr.Fun "h" [])] "f" []).2.2 "h" [] rfl⟩

/-- C2: matching a `Symbol` pattern named `v` against any subject: when
`v` is already bound the match leaves the bindings unchanged and succeeds
iff the existing binding is structurally equal to the subject; when
unbound, `v` is bound to the subject and the match succeeds.  Hence
`f(x, x)` matched against `f(e1, e2)` succeeds exactly when `e1 = e2`,
binding `x` to `e1`. -/
theorem C2_symbol_pattern_binding (v : String) (subject : Expr)
    (b : Bindings) (e1 e2 : Expr) :
    (∀ bound, bget b v = some bound →
      pattern_match_impl (Expr.Sym v) subject b = (Expr.beq bound subject, b) ∧
      (Expr.beq bound subject = true ↔ bound = subject)) ∧
    (bget b v = none →
      pattern_match_impl (Expr.Sym v) subject b = (true, binsert b v subject)) ∧
    (pattern_match (Expr.Fun "f" [Expr.Sym "x", Expr.Sym "x"])
        (Expr.Fun "f" [e1, e2]) =
      if e1 = e2 then some [("x", e1)] else none) := by
  refine ⟨?_, ?_, ?_⟩
  · intro bound hb
    exact ⟨by simp [pattern_match_impl, hb], Expr.beq_iff bound subject⟩
  · intro hn; simp [pattern_match_impl, hn]
  · by_cases he : e1 = e2
    · subst he
      have hb : Expr.beq e1 e1 = true := (Expr.beq_iff e1 e1).mpr rfl
      simp [pattern_match, pattern_match_impl, pattern_match_list, bget,
        binsert, hb]
    · have hb : Expr.beq e1 e2 = false :=
        Bool.eq_false_iff.mpr (fun hx => he ((Expr.beq_iff e1 e2).mp hx))
      simp [pattern_match, pattern_match_impl, pattern_match_list, bget,
        binsert, hb, he]

/-- C2 witness: a bound symbol is rechecked against the subject, an
unbound one is bound, and the `f(x, x)` example at unequal arguments. -/
theorem C2_symbol_pattern_binding_witness :
    (pattern_match_impl (Expr.Sym "x") (Expr.Sym "a") [("x", Expr.Sym "a")] =
        (Expr.beq (Expr.Sym "a") (Expr.Sym "a"), [("x", Expr.Sym "a")]) ∧
      (Expr.beq (Expr.Sym "a") (Expr.Sym "a") = true ↔
        Expr.Sym "a" = Expr.Sym "a")) ∧
    pattern_match_impl (Expr.Sym "y") (Expr.Sym "a") [] =
      (true, binsert [] "y" (Expr.Sym "a")) ∧
    pattern_match (Expr.Fun "f" [Expr.Sym "x", Expr.Sym "x"])
        (Expr.Fun "f" [Expr.Sym "a", Expr.Sym "b"]) =
      (if Expr.Sym "a" = Expr.Sym "b" then some [("x", Expr.Sym "a")] else none) :=
  ⟨(C2_symbol_pattern_binding "x" (Expr.Sym "a") [("x", Expr.Sym "a")]
      (Expr.Sym "a") (Expr.Sym "b")).1 (Expr.Sym "a") rfl,
   (C2_symbol_pattern_binding "y" (Expr.Sym "a") [] (Expr.Sym "a")
      (Expr.Sym "b")).2.1 rfl,
   (C2_symbol_pattern_binding "x" (Expr.Sym "a") [] (Expr.Sym "a")
      (Expr.Sym "b")).2.2⟩

/-- C3: when the rule's head matches the whole subject with bindings `b`,
`apply_all` is exactly the substituted body: the entire expression is
replaced and no deeper subtree is rewritten in the same call. -/
theorem C3_top_level_rewrite (r : Rule) (s : Expr) (b : Bindings)
    (h : pattern_match r.head s = some b) :
    r.apply_all s = substitute_bindings b r.body := by
  cases s with
  | Sym a => rw [Rule.apply_all.eq_1, h]
  | Fun n args => rw [Rule.apply_all.eq_2, h]

/-- C3 witness: rule `g(x) => h(x)` on subject `g(f(a))` replaces the
whole expression by the substituted body. -/
theorem C3_top_level_rewrite_witness :
    (Rule.mk (Expr.Fun "g" [Expr.Sym "x"]) (Expr.Fun "h" [Expr.Sym "x"])).apply_all
        (Expr.Fun "g" [Expr.Fun "f" [Expr.Sym "a"]]) =
      substitute_bindings [("x", Expr.Fun "f" [Expr.Sym "a"])]
        (Expr.Fun "h" [Expr.Sym "x"]) :=
  C3_top_level_rewrite _ _ [("x", Expr.Fun "f" [Expr.Sym "a"])] rfl

/-- C9: substitution with an empty bindings map is the identity on every
template, and any symbol whose name is not a key of the bindings is
returned unchanged — both as a leaf and in functor-name position, where
the function application is rebuilt with the same name over the
substituted children. -/
theorem C9_empty_substitution_identity (t : Expr) (b : Bindings)
    (name : String) (args : List Expr) :
    substitute_bindings [] t = some t ∧
    (bget b name = none →
      substitute_bindings b (Expr.Sym name) = some (Expr.Sym name)) ∧
    (bget b name = none →
      substitute_bindings b (Expr.Fun name args) =
        (substitute_list b args).map (Expr.Fun name)) := by
  refine ⟨substitute_bindings_nil t, ?_, ?_⟩
  · intro h
    simp [substitute_bindings, h]
  · intro h
    simp [substitute_bindings, h]

/-- C9 witness at a nested template and a non-empty bindings map, for
both a leaf symbol and a functor name absent from the bindings. -/
theorem C9_empty_substitution_identity_witness :
    substitute_bindings [] (Expr.Fun "f" [Expr.Sym "x", Expr.Fun "g" []]) =
      some (Expr.Fun "f" [Expr.Sym "x", Expr.Fun "g" []]) ∧
    substitute_bindings [("y", Expr.Sym "z")] (Expr.Sym "x") =
      some (Expr.Sym "x") ∧
    substitute_bindings [("y", Expr.Sym "z")] (Expr.Fun "f" [Expr.Sym "y"]) =
      (substitute_list [("y", Expr.Sym "z")] [Expr.Sym "y"]).map (Expr.Fun "f") :=
  ⟨(C9_empty_substitution_identity (Expr.Fun "f" [Expr.Sym "x", Expr.Fun "g" []])
      [] "x" []).1,
   (C9_empty_substitution_identity (Expr.Sym "x") [("y", Expr.Sym "z")] "x"
      []).2.1 rfl,
   (C9_empty_substitution_identity (Expr.Sym "x") [("y", Expr.Sym "z")] "f"
      [Expr.Sym "y"]).2.2 rfl⟩

/-- C10: a bare `Symbol` pattern named `v` matches every subject,
returning exactly the singleton bindings, so a rule with a bare-symbol
head always replaces the entire input with the substituted body. -/
theorem C10_bare_symbol_pattern (v : String) (s : Expr) (body : Expr) :
    pattern_match (Expr.Sym v) s = some [(v, s)] ∧
    (Rule.mk (Expr.Sym v) body).apply_all s =
      substitute_bindings [(v, s)] body := by
  have h : pattern_match (Expr.Sym v) s = some [(v, s)] := by
    simp [pattern_match, pattern_match_impl, bget, binsert]
  refine ⟨h, ?_⟩
  cases s with
  | Sym a =>
    rw [Rule.apply_all.eq_1,
      show (Rule.mk (Expr.Sym v) body).head = Expr.Sym v from rfl, h]
  | Fun n args =>
    rw [Rule.apply_all.eq_2,
      show (Rule.mk (Expr.Sym v) body).head = Expr.Sym v from rfl, h]

/-- C4 counterexample: the claim's "matching a function application
against a plain symbol (or vice versa) fails immediately" is false in the
vice-versa direction: a plain-symbol pattern matched against a
function-application subject does not fail — it succeeds, binding the
symbol to the whole subject. -/
theorem C4_vice_versa_counterexample :
    pattern_match (Expr.Sym "x") (Expr.Fun "a" []) =
      some [("x", Expr.Fun "a" [])] := rfl

/-- C4 (amended): matching a function-application pattern against a
function-application subject succeeds only with the same functor name and
arity, the children then being matched pairwise left-to-right threading
one binding set and failing as soon as any child fails; a
function-application pattern against a plain symbol fails immediately
(a plain-symbol pattern, by contrast, matches any subject).  Thus `f(x)`
against `g(a)` fails and `f(x)` against `f(a, b)` fails. -/
theorem C4_fun_matching (n1 n2 : String) (a1 a2 : List Expr) (b : Bindings)
    (s : String) :
    (¬(n1 = n2 ∧ a1.length = a2.length) →
      pattern_match_impl (Expr.Fun n1 a1) (Expr.Fun n2 a2) b = (false, b)) ∧
    (n1 = n2 → a1.length = a2.length →
      pattern_match_impl (Expr.Fun n1 a1) (Expr.Fun n2 a2) b =
        pattern_match_list a1 a2 b) ∧
    pattern_match_impl (Expr.Fun n1 a1) (Expr.Sym s) b = (false, b) ∧
    (∀ p ps v vs b2,
      pattern_match_list (p :: ps) (v :: vs) b2 =
        if (pattern_match_impl p v b2).1 then
          pattern_match_list ps vs (pattern_match_impl p v b2).2
        else (false, (pattern_match_impl p v b2).2)) ∧
    pattern_match (Expr.Fun "f" [Expr.Sym "x"]) (Expr.Fun "g" [Expr.Sym "a"]) =
      none ∧
    pattern_match (Expr.Fun "f" [Expr.Sym "x"])
      (Expr.Fun "f" [Expr.Sym "a", Expr.Sym "b"]) = none := by
  refine ⟨?_, ?_, rfl, fun p ps v vs b2 => rfl, rfl, rfl⟩
  · intro h; simp [pattern_match_impl, h]
  · intro h1 h2; simp [pattern_match_impl, h1, h2]

/-- C4 witness: a name mismatch and a same-name same-arity descent at
concrete inputs. -/
theorem C4_fun_matching_witness :
    pattern_match_impl (Expr.Fun "f" [Expr.Sym "x"])
      (Expr.Fun "g" [Expr.Sym "a"]) [] = (false, []) ∧
    pattern_match_impl (Expr.Fun "f" [Expr.Sym "x"])
        (Expr.Fun "f" [Expr.Sym "a"]) [] =
      pattern_match_list [Expr.Sym "x"] [Expr.Sym "a"] [] :=
  ⟨(C4_fun_matching "f" "g" [Expr.Sym "x"] [Expr.Sym "a"] [] "s").1
      (by simp),
   (C4_fun_matching "f" "f" [Expr.Sym "x"] [Expr.Sym "a"] [] "s").2.1
      rfl rfl⟩

/-- C6: when the head does not match at top level, `apply_all` returns a
symbol unchanged and rebuilds a function application with the unchanged
functor name over children each rewritten independently by the same
algorithm; e.g. with rule `f(a) => c` the subject `g(f(a))` becomes
`g(c)`. -/
theorem C6_no_match_recursion (r : Rule) (s : String) (n : String)
    (args : List Expr) :
    (pattern_match r.head (Expr.Sym s) = none →
      r.apply_all (Expr.Sym s) = some (Expr.Sym s)) ∧
    (pattern_match r.head (Expr.Fun n args) = none →
      r.apply_all (Expr.Fun n args) =
        (Rule.apply_list r args).map (Expr.Fun n)) ∧
    Rule.apply_list r args = args.mapM r.apply_all ∧
    (Rule.mk (Expr.Fun "f" [Expr.Sym "a"]) (Expr.Sym "c")).apply_all
        (Expr.Fun "g" [Expr.Fun "f" [Expr.Sym "a"]]) =
      some (Expr.Fun "g" [Expr.Sym "c"]) := by
  refine ⟨?_, ?_, Rule.apply_list_eq_mapM r args, rfl⟩
  · intro h; rw [Rule.apply_all.eq_1, h]
  · intro h; rw [Rule.apply_all.eq_2, h]

/-- C6 witness: a rule whose head matches neither a concrete symbol nor a
concrete function application at top level. -/
theorem C6_no_match_recursion_witness :
    (Rule.mk (Expr.Fun "f" [Expr.Sym "a"]) (Expr.Sym "c")).apply_all
      (Expr.Sym "q") = some (Expr.Sym "q") ∧
    (Rule.mk (Expr.Fun "f" [Expr.Sym "a"]) (Expr.Sym "c")).apply_all
        (Expr.Fun "g" [Expr.Fun "f" [Expr.Sym "a"]]) =
      (Rule.apply_list (Rule.mk (Expr.Fun "f" [Expr.Sym "a"]) (Expr.Sym "c"))
        [Expr.Fun "f" [Expr.Sym "a"]]).map (Expr.Fun "g") :=
  ⟨(C6_no_match_recursion (Rule.mk (Expr.Fun "f" [Expr.Sym "a"]) (Expr.Sym "c"))
      "q" "g" []).1 rfl,
   (C6_no_match_recursion (Rule.mk (Expr.Fun "f" [Expr.Sym "a"]) (Expr.Sym "c"))
      "q" "g" [Expr.Fun "f" [Expr.Sym "a"]]).2.1 rfl⟩

/-- C5: a character that is not whitespace, not recognized punctuation and
not alphanumeric yields exactly one `Invalid` token and permanently
exhausts the tokenizer; end of input yields exactly one `End` token with
empty text and then the stream is finished; an exhausted lexer never
yields again; and tokenizing `"a+b"` yields `symbol(a)`, `invalid(+)` and
nothing more (not even for `b`). -/
theorem C5_invalid_terminates_stream (l : Lexer) (c : Char)
    (rest : List Char) :
    (l.exhausted = false → l.chars = c :: rest →
      charIsWhitespace c = false →
      c ≠ '(' → c ≠ ')' → c ≠ ',' → c ≠ '=' → c ≠ ':' →
      charIsAlphanumeric c = false →
      l.next = some (⟨TokenKind.Invalid, String.singleton c, l.loc⟩,
        { l with chars := rest, cnum := l.cnum + 1, exhausted := true }) ∧
      Lexer.next { l with chars := rest, cnum := l.cnum + 1, exhausted := true } = none) ∧
    (l.exhausted = false → l.chars = [] →
      l.next = some (⟨TokenKind.End, "", l.loc⟩, { l with exhausted := true }) ∧
      Lexer.next { l with exhausted := true } = none) ∧
    (l.exhausted = true → l.next = none) ∧
    tokenize "a+b" =
      [⟨TokenKind.Sym, "a", ⟨none, 0, 0⟩⟩,
       ⟨TokenKind.Invalid, "+", ⟨none, 0, 1⟩⟩] := by
  refine ⟨?_, ?_, Lexer.next_exhausted l, rfl⟩
  · intro he hc hw h1 h2 h3 h4 h5 ha
    exact ⟨Lexer.next_invalid l c rest he hc hw ⟨h1, h2, h3, h4, h5⟩ ha,
      Lexer.next_exhausted _ rfl⟩
  · intro he hc
    exact ⟨Lexer.next_end l he hc, Lexer.next_exhausted _ rfl⟩

/-- C5 witness: the invalid character `+` and the empty input, at concrete
lexer states. -/
theorem C5_invalid_terminates_stream_witness :
    ((Lexer.from_iter ['+', 'b']).next =
        some (⟨TokenKind.Invalid, String.singleton '+', ⟨none, 0, 0⟩⟩,
          ⟨['b'], true, none, 0, 0, 1⟩) ∧
      Lexer.next ⟨['b'], true, none, 0, 0, 1⟩ = none) ∧
    ((Lexer.from_iter []).next =
        some (⟨TokenKind.End, "", ⟨none, 0, 0⟩⟩, ⟨[], true, none, 0, 0, 0⟩) ∧
      Lexer.next ⟨[], true, none, 0, 0, 0⟩ = none) :=
  ⟨(C5_invalid_terminates_stream (Lexer.from_iter ['+', 'b']) '+' ['b']).1
      rfl rfl (by decide) (by decide) (by decide) (by decide) (by decide)
      (by decide) (by decide),
   (C5_invalid_terminates_stream (Lexer.from_iter []) '+' []).2.1 rfl rfl⟩

/-- C7: for every alphanumeric classifier `al` — a parameter standing for
Rust's `char::is_alphanumeric`, whose full Unicode `Alphabetic`/`Number`
tables are external data; the theorem holds uniformly in it, so in
particular for the program's classifier — each of `(`, `)`, `,`, `=` and
`:` immediately yields a one-character token of the corresponding kind;
an alphanumeric-leading character starts a greedy scan of further
alphanumeric characters (exactly `takeWhile al`), and the accumulated
text yields the keyword kind exactly for `rule`, `shape`, `apply`,
`done`, and a generic `Sym` token otherwise.  (For the program's
classifier no alphanumeric character is whitespace or one of the five
punctuation characters, so the word conjunct's remaining hypotheses
exclude nothing.) -/
theorem C7_token_classification (al : Char → Bool) (l : Lexer) (c : Char)
    (rest : List Char) (text : String) :
    (l.exhausted = false → l.chars = '(' :: rest →
      Lexer.next_gen al l =
        some (⟨TokenKind.OpenParen, String.singleton '(', l.loc⟩,
          { l with chars := rest, cnum := l.cnum + 1 })) ∧
    (l.exhausted = false → l.chars = ')' :: rest →
      Lexer.next_gen al l =
        some (⟨TokenKind.CloseParen, String.singleton ')', l.loc⟩,
          { l with chars := rest, cnum := l.cnum + 1 })) ∧
    (l.exhausted = false → l.chars = ',' :: rest →
      Lexer.next_gen al l =
        some (⟨TokenKind.Comma, String.singleton ',', l.loc⟩,
          { l with chars := rest, cnum := l.cnum + 1 })) ∧
    (l.exhausted = false → l.chars = '=' :: rest →
      Lexer.next_gen al l =
        some (⟨TokenKind.Equals, String.singleton '=', l.loc⟩,
          { l with chars := rest, cnum := l.cnum + 1 })) ∧
    (l.exhausted = false → l.chars = ':' :: rest →
      Lexer.next_gen al l =
        some (⟨TokenKind.Colon, String.singleton ':', l.loc⟩,
          { l with chars := rest, cnum := l.cnum + 1 })) ∧
    (l.exhausted = false → l.chars = c :: rest → al c = true →
      charIsWhitespace c = false →
      c ≠ '(' → c ≠ ')' → c ≠ ',' → c ≠ '=' → c ≠ ':' →
      Lexer.next_gen al l = some
        (⟨(keyword_by_name (String.mk (c :: rest.takeWhile al))).getD
            TokenKind.Sym,
          String.mk (c :: rest.takeWhile al), l.loc⟩,
         { l with chars := rest.dropWhile al,
                  cnum := l.cnum + 1 + (rest.takeWhile al).length })) ∧
    keyword_by_name "rule" = some TokenKind.Rule ∧
    keyword_by_name "shape" = some TokenKind.Shape ∧
    keyword_by_name "apply" = some TokenKind.Apply ∧
    keyword_by_name "done" = some TokenKind.Done ∧
    (text ≠ "rule" → text ≠ "shape" → text ≠ "apply" → text ≠ "done" →
      keyword_by_name text = none) := by
  refine ⟨?_, ?_, ?_, ?_, ?_, ?_, rfl, rfl, rfl, rfl, ?_⟩
  · intro he hc
    exact Lexer.next_gen_punct al l '(' rest TokenKind.OpenParen he hc
      (Or.inl ⟨rfl, rfl⟩)
  · intro he hc
    exact Lexer.next_gen_punct al l ')' rest TokenKind.CloseParen he hc
      (Or.inr (Or.inl ⟨rfl, rfl⟩))
  · intro he hc
    exact Lexer.next_gen_punct al l ',' rest TokenKind.Comma he hc
      (Or.inr (Or.inr (Or.inl ⟨rfl, rfl⟩)))
  · intro he hc
    exact Lexer.next_gen_punct al l '=' rest TokenKind.Equals he hc
      (Or.inr (Or.inr (Or.inr (Or.inl ⟨rfl, rfl⟩))))
  · intro he hc
    exact Lexer.next_gen_punct al l ':' rest TokenKind.Colon he hc
      (Or.inr (Or.inr (Or.inr (Or.inr ⟨rfl, rfl⟩))))
  · intro he hc ha hw h1 h2 h3 h4 h5
    rw [Lexer.next_gen_word al l c rest he hc hw ⟨h1, h2, h3, h4, h5⟩ ha,
      scan_word_gen_spec]
    rfl
  · intro h1 h2 h3 h4
    simp [keyword_by_name, h1, h2, h3, h4]

/-- C7 witness at the ASCII instantiation of the classifier: each
punctuation character, the keyword `rule`, a non-keyword word, and a
non-keyword text for the lookup. -/
theorem C7_token_classification_witness :
    (Lexer.from_iter ['(', 'x']).next =
      some (⟨TokenKind.OpenParen, String.singleton '(', ⟨none, 0, 0⟩⟩,
        ⟨['x'], false, none, 0, 0, 1⟩) ∧
    (Lexer.from_iter [')']).next =
      some (⟨TokenKind.CloseParen, String.singleton ')', ⟨none, 0, 0⟩⟩,
        ⟨[], false, none, 0, 0, 1⟩) ∧
    (Lexer.from_iter [',']).next =
      some (⟨TokenKind.Comma, String.singleton ',', ⟨none, 0, 0⟩⟩,
        ⟨[], false, none, 0, 0, 1⟩) ∧
    (Lexer.from_iter ['=']).next =
      some (⟨TokenKind.Equals, String.singleton '=', ⟨none, 0, 0⟩⟩,
        ⟨[], false, none, 0, 0, 1⟩) ∧
    (Lexer.from_iter [':']).next =
      some (⟨TokenKind.Colon, String.singleton ':', ⟨none, 0, 0⟩⟩,
        ⟨[], false, none, 0, 0, 1⟩) ∧
    (Lexer.from_iter ['r', 'u', 'l', 'e', ')']).next =
      some (⟨TokenKind.Rule, "rule", ⟨none, 0, 0⟩⟩,
        ⟨[')'], false, none, 0, 0, 4⟩) ∧
    (Lexer.from_iter ['x', '1', ' ']).next =
      some (⟨TokenKind.Sym, "x1", ⟨none, 0, 0⟩⟩,
        ⟨[' '], false, none, 0, 0, 2⟩) ∧
    keyword_by_name "swap" = none :=
  ⟨(C7_token_classification charIsAlphanumeric (Lexer.from_iter ['(', 'x'])
      'a' ['x'] "").1 rfl rfl,
   (C7_token_classification charIsAlphanumeric (Lexer.from_iter [')'])
      'a' [] "").2.1 rfl rfl,
   (C7_token_classification charIsAlphanumeric (Lexer.from_iter [','])
      'a' [] "").2.2.1 rfl rfl,
   (C7_token_classification charIsAlphanumeric (Lexer.from_iter ['='])
      'a' [] "").2.2.2.1 rfl rfl,
   (C7_token_classification charIsAlphanumeric (Lexer.from_iter [':'])
      'a' [] "").2.2.2.2.1 rfl rfl,
   (C7_token_classification charIsAlphanumeric
      (Lexer.from_iter ['r', 'u', 'l', 'e', ')']) 'r'
      ['u', 'l', 'e', ')'] "").2.2.2.2.2.1 rfl rfl (by decide) (by decide)
      (by decide) (by decide) (by decide) (by decide) (by decide),
   (C7_token_classification charIsAlphanumeric
      (Lexer.from_iter ['x', '1', ' ']) 'x'
      ['1', ' '] "").2.2.2.2.2.1 rfl rfl (by decide) (by decide) (by decide)
      (by decide) (by decide) (by decide) (by decide),
   (C7_token_classification charIsAlphanumeric (Lexer.from_iter [])
      'a' [] "swap").2.2.2.2.2.2.2.2.2.2
      (by decide) (by decide) (by decide) (by decide)⟩

/-- C8: every emitted token's location is computed after whitespace
skipping and before its characters are consumed, marking the token's first
character with zero-based row and column (`col = cnum - bol`); a newline
consumed during whitespace skipping increments the row and resets the
column origin; and tokenizing `"a\nb"` puts `a` at row 0 col 0 and `b` at
row 1 col 0. -/
theorem C8_token_location (l l2 : Lexer) (t : Token) (cs : List Char)
    (lnum bol cnum : Nat) :
    (l.next = some (t, l2) → t.loc = l.skipWhitespace.loc) ∧
    Lexer.loc l = ⟨l.file_path, l.lnum, l.cnum - l.bol⟩ ∧
    skip_ws ('\n' :: cs) lnum bol cnum =
      skip_ws cs (lnum + 1) (cnum + 1) (cnum + 1) ∧
    tokenize "a\nb" =
      [⟨TokenKind.Sym, "a", ⟨none, 0, 0⟩⟩,
       ⟨TokenKind.Sym, "b", ⟨none, 1, 0⟩⟩,
       ⟨TokenKind.End, "", ⟨none, 1, 1⟩⟩] :=
  ⟨fun h => Lexer.next_loc_eq l t l2 h, rfl, rfl, rfl⟩

/-- C8 witness: the token `b` of `"a\nb"`, emitted from the state just
after `a` was consumed, carries the location of the whitespace-skipped
state: row advanced by the newline, column origin reset. -/
theorem C8_token_location_witness :
    Token.loc ⟨TokenKind.Sym, "b", ⟨none, 1, 0⟩⟩ =
      (Lexer.skipWhitespace ⟨['\n', 'b'], false, none, 0, 1, 1⟩).loc :=
  (C8_token_location ⟨['\n', 'b'], false, none, 0, 1, 1⟩
    ⟨[], false, none, 1, 2, 3⟩ ⟨TokenKind.Sym, "b", ⟨none, 1, 0⟩⟩
    [] 0 0 0).1 rfl

end Noq
